import Mathlib

/-!
Verification of the 500nyang daily news bot core
(`common.py` / `main.py`): a shallow embedding of the
retrieval–classification–selection pipeline, followed by theorems about it.

Python strings are modelled as Lean `String` (a sequence of code points);
the Python primitives used by the source (`replace(" ", "")`, `lower()`,
`strip()`, `in`, `int(...)`, lexicographic `<=`) are modelled explicitly
on the underlying `List Char` so that everything reduces in the kernel.
-/

namespace NewsBot

/-- Python truthiness of a string: `not s` is true exactly when `s` is empty. -/
def pyEmpty (s : String) : Bool := s.data.isEmpty

/-- Python `s.replace(" ", "")`: with a one-character pattern this removes
every occurrence of the ASCII space character (and nothing else). -/
def pyRemoveSpaces (s : String) : String := ⟨s.data.filter (fun c => c ≠ ' ')⟩

/-- Python `s.lower()` restricted to its effect on ASCII letters
(the Korean keywords and categories have no case). -/
def pyLower (s : String) : String := ⟨s.data.map Char.toLower⟩

/-- Python `s.strip()`: drop whitespace from both ends. -/
def pyStrip (s : String) : String :=
  ⟨((s.data.dropWhile Char.isWhitespace).reverse.dropWhile Char.isWhitespace).reverse⟩

/-- Contiguous-sublist test on character lists. -/
def isSubList (needle : List Char) : List Char → Bool
  | [] => needle.isEmpty
  | c :: cs => needle.isPrefixOf (c :: cs) || isSubList needle cs

/-- Python `needle in hay` on strings: substring test. -/
def pyContains (hay needle : String) : Bool := isSubList needle.data hay.data

/-- Python string equality (sequence of code points). -/
def pyStrEq (a b : String) : Bool := a.data == b.data

/-- Lexicographic `<=` on code-point sequences, as Python compares strings. -/
def lexLe : List Char → List Char → Bool
  | [], _ => true
  | _ :: _, [] => false
  | a :: as, b :: bs =>
    if a < b then true
    else if b < a then false
    else lexLe as bs

/-- Python `a <= b` on strings. -/
def pyStrLe (a b : String) : Bool := lexLe a.data b.data

/-- Value of a list of decimal digit characters. -/
def digitsVal (ds : List Char) : Nat :=
  ds.foldl (fun n c => n * 10 + (c.toNat - 48)) 0

/-- Parse a nonempty all-digit character list; `none` otherwise. -/
def parseDigits (ds : List Char) : Option Nat :=
  if !ds.isEmpty && ds.all Char.isDigit then some (digitsVal ds) else none

/-- Python `int(s)` on a string: strip surrounding whitespace, allow one
optional sign, then decimal digits; any other shape raises, which the
caller turns into the `none` case. -/
def pyParseInt (s : String) : Option Int :=
  let t := ((s.data.dropWhile Char.isWhitespace).reverse.dropWhile Char.isWhitespace).reverse
  match t with
  | '+' :: ds => (parseDigits ds).map (fun n => (n : Int))
  | '-' :: ds => (parseDigits ds).map (fun n => -(n : Int))
  | ds => (parseDigits ds).map (fun n => (n : Int))

/-- A cell of a spreadsheet row: the store returns strings or numbers. -/
inductive CellVal where
  | int (n : Int)
  | str (s : String)
deriving DecidableEq

/-- One raw row from `gsheet_worksheet.get_all_records()`. A `none` field
models an absent dictionary key (the code reads every field through
`record.get(key, default)`). -/
structure Row where
  timestamp : Option String := none
  relevance_score : Option CellVal := none
  title : Option String := none
  description : Option String := none
  url : Option String := none
  keywords : Option String := none
  region : Option String := none
  category : Option String := none
  has_price : Option Bool := none
  has_policy : Option Bool := none
deriving DecidableEq

/-- The dictionary built by `get_latest_news_from_gsheet` for each kept row. -/
structure NewsRecord where
  title : String
  description : String
  link : String
  url : String
  originallink : String
  relevance_score : Int
  keywords : List String
  region : String
  category : String
  has_price : Bool
  has_policy : Bool
  timestamp : String
  is_relevant : Bool
deriving DecidableEq

/-- State of the module-level `gsheet_worksheet` handle together with the
outcome of `get_all_records()`: not initialized, a fetched row list, or a
raised exception during the fetch. -/
inductive StoreState where
  | uninit
  | rows (records : List Row)
  | fail
deriving DecidableEq

/-- `record.get('timestamp', '')`, the sort key used by the code. -/
def tsKey (record : Row) : String := record.timestamp.getD ""

/-- `score = record.get('relevance_score', 0)` followed by the
`isinstance(score, str)` branch with `try: int(score) except: 0`. -/
def coerceScore (v : Option CellVal) : Int :=
  match v with
  | none => 0
  | some (.int n) => n
  | some (.str s) => (pyParseInt s).getD 0

/-- `s.split(',')` on the comma character. -/
def splitComma (s : String) : List String :=
  go s.data [] []
where
  go : List Char → List Char → List String → List String
    | [], cur, acc => (acc ++ [⟨cur.reverse⟩])
    | c :: cs, cur, acc =>
      if c = ',' then go cs [] (acc ++ [⟨cur.reverse⟩])
      else go cs (c :: cur) acc

/-- The dictionary literal appended by `get_latest_news_from_gsheet` for a
row whose (already coerced) score passed the filter: every link-like field
is copied from the row's `url` cell. -/
def mkNews (record : Row) (score : Int) : NewsRecord :=
  { title := record.title.getD ""
    description := record.description.getD ""
    link := record.url.getD ""
    url := record.url.getD ""
    originallink := record.url.getD ""
    relevance_score := score
    keywords :=
      match record.keywords with
      | none => []
      | some s => if pyEmpty s then [] else splitComma s
    region := record.region.getD ""
    category := record.category.getD ""
    has_price := record.has_price.getD false
    has_policy := record.has_policy.getD false
    timestamp := record.timestamp.getD ""
    is_relevant := true }

/-- Stable insertion of a row into a list already sorted by `tsKey`
descending: the new row goes after every element whose key is `>=` its own,
so rows inserted later stay after earlier rows with an equal key. -/
def insertDesc (r : Row) : List Row → List Row
  | [] => [r]
  | x :: xs => if pyStrLe (tsKey r) (tsKey x) then x :: insertDesc r xs else r :: x :: xs

/-- `sorted(all_records, key=lambda x: x.get('timestamp', ''), reverse=True)`.
Python's `sorted` is a stable sort; two stable sorts under the same key
agree on every input, so this left-to-right stable insertion sort computes
exactly the list the source builds. -/
def sortRows (records : List Row) : List Row :=
  records.foldl (fun acc r => insertDesc r acc) []

/-- The `for record in sorted_records[:limit]` loop body of
`get_latest_news_from_gsheet`: coerce the score, append the converted
record when the score is at least 75, and break out of the loop as soon as
`len(latest_news) >= limit`. -/
def latestLoop (limit : Nat) : List Row → List NewsRecord → List NewsRecord
  | [], latest_news => latest_news
  | record :: rest, latest_news =>
    let score := coerceScore record.relevance_score
    let latest_news2 :=
      if 75 ≤ score then latest_news ++ [mkNews record score] else latest_news
    if limit ≤ latest_news2.length then latest_news2 else latestLoop limit rest latest_news2

/-- `get_latest_news_from_gsheet(limit)` (`common.py`): an uninitialized
handle, a fetch that raises, and a fetch of zero rows all yield `[]`;
otherwise the rows are sorted newest-first, truncated to `limit`, and the
loop keeps those of the truncated rows whose score clears 75. -/
def get_latest_news_from_gsheet (st : StoreState) (limit : Nat) : List NewsRecord :=
  match st with
  | .uninit => []
  | .fail => []
  | .rows all_records =>
    if all_records.isEmpty then []
    else latestLoop limit ((sortRows all_records).take limit) []

/-- `CATEGORY_MAP` (`main.py`): the fixed, ordered keyword → canonical
category table; a Python dict preserves insertion order, so iteration in
`detect_category` walks exactly this list. -/
def CATEGORY_MAP : List (String × String) :=
  [("정책", "정책·제도"),
   ("제도", "정책·제도"),
   ("정책제도", "정책·제도"),
   ("시장", "시장 동향·시황"),
   ("동향", "시장 동향·시황"),
   ("시황", "시장 동향·시황"),
   ("시장동향", "시장 동향·시황"),
   ("분양", "분양·청약"),
   ("청약", "분양·청약"),
   ("분양청약", "분양·청약"),
   ("개발", "개발·재건축·재개발"),
   ("재건축", "개발·재건축·재개발"),
   ("재개발", "개발·재건축·재개발"),
   ("개발재건축", "개발·재건축·재개발"),
   ("금융", "금융·대출·금리"),
   ("대출", "금융·대출·금리"),
   ("금리", "금융·대출·금리"),
   ("금융대출", "금융·대출·금리"),
   ("세금", "세금·법률·규제"),
   ("법률", "세금·법률·규제"),
   ("규제", "세금·법률·규제"),
   ("세금법률", "세금·법률·규제")]

/-- `CATEGORY_EMOJI` (`main.py`): canonical category → display glyph. -/
def CATEGORY_EMOJI : List (String × String) :=
  [("정책·제도", "📋"),
   ("시장 동향·시황", "📊"),
   ("분양·청약", "🏗️"),
   ("개발·재건축·재개발", "🏢"),
   ("금융·대출·금리", "💰"),
   ("세금·법률·규제", "⚖️")]

/-- `detect_category(user_message)` (`main.py`): `None` and the empty
string yield `None`; otherwise only ASCII spaces are removed
(`replace(" ", "")`), the text is lower-cased, and the first table entry
whose keyword occurs as a substring wins. -/
def detect_category (user_message : Option String) : Option String :=
  match user_message with
  | none => none
  | some um =>
    if pyEmpty um then none
    else
      let message := pyLower (pyRemoveSpaces um)
      (CATEGORY_MAP.find? (fun kv => pyContains message kv.1)).map (fun kv => kv.2)

/-- `normalize_category(category)` (`main.py`): empty stays empty,
otherwise surrounding whitespace is trimmed. -/
def normalize_category (category : String) : String :=
  if pyEmpty category then "" else pyStrip category

/-- `get_news_by_category(category, limit)` (`main.py`): fetch the latest
news through `get_latest_news_from_gsheet(limit=200)`, keep the records
whose normalized category equals the normalized target case-insensitively,
and return the first `limit` of them. -/
def get_news_by_category (st : StoreState) (category : String) (limit : Nat) : List NewsRecord :=
  let all_news := get_latest_news_from_gsheet st 200
  if all_news.isEmpty then []
  else
    let normalized_target := normalize_category category
    let filtered_news := all_news.filter
      (fun news => pyStrEq (pyLower (normalize_category news.category)) (pyLower normalized_target))
    filtered_news.take limit

/-- The item dictionary as read by the formatter loop in
`handle_news_request`: only the fields the loop touches, each optional
because the loop reads them through `item.get`. -/
structure Item where
  title : Option String := none
  url : Option String := none
  link : Option String := none
  originallink : Option String := none
deriving DecidableEq

/-- View of a selector output record as a formatter item (those records
always carry all four keys). -/
def toItem (r : NewsRecord) : Item :=
  { title := some r.title, url := some r.url, link := some r.link,
    originallink := some r.originallink }

/-- Python truthiness of `item.get(key)`: `None` and `""` are falsy. -/
def pyTruthy (o : Option String) : Bool :=
  match o with
  | none => false
  | some s => !pyEmpty s

/-- `item.get('url') or item.get('link') or item.get('originallink', '')`. -/
def resolveUrl (item : Item) : String :=
  if pyTruthy item.url then item.url.getD ""
  else if pyTruthy item.link then item.link.getD ""
  else item.originallink.getD ""

/-- The resolved link as displayed: `if not url: url = "(URL 정보 없음)"`. -/
def displayUrl (item : Item) : String :=
  let url := resolveUrl item
  if pyEmpty url then "(URL 정보 없음)" else url

/-- One iteration of the formatter loop:
`news_list += f"{idx}. {title}\n{url}\n\n"` with
`title = item.get('title', '제목 없음')`. -/
def formatLine (idx : Nat) (item : Item) : String :=
  toString idx ++ ". " ++ item.title.getD "제목 없음" ++ "\n" ++ displayUrl item ++ "\n\n"

/-- The full `news_list` string before the final `.strip()`: the header,
a blank line, then one numbered line per item in input order (1-based). -/
def newsListText (title_text : String) (items : List Item) : String :=
  title_text ++ "\n\n" ++ String.join (items.enum.map (fun p => formatLine (p.1 + 1) p.2))

/-- `CATEGORY_EMOJI.get(category, "📰")`. -/
def emojiFor (category : String) : String :=
  ((CATEGORY_EMOJI.find? (fun kv => pyStrEq kv.1 category)).map (fun kv => kv.2)).getD "📰"

/-- The `simpleText` content produced by `handle_news_request`
(`main.py`) for a given store state and user utterance: the branch on the
detected category, the two empty-result messages, and otherwise the
stripped header-plus-list text. The surrounding response envelope carries
no further information, so the handler is modelled by this string. -/
def handle_news_request (st : StoreState) (utterance : Option String) : String :=
  match detect_category utterance with
  | some category =>
    let news_items := get_news_by_category st category 3
    let category_emoji := emojiFor category
    if news_items.isEmpty then
      category_emoji ++ " '" ++ category ++
        "' 카테고리의 최신 뉴스가 아직 없습니다.\n\n잠시 후 다시 시도해주시거나, 다른 카테고리를 선택해주세요."
    else
      let title_text :=
        category_emoji ++ " " ++ category ++ " 뉴스 (총 " ++ toString news_items.length ++ "건)"
      pyStrip (newsListText title_text (news_items.map toItem))
  | none =>
    let news_items := get_latest_news_from_gsheet st 5
    let title_text := "📰 오늘의 부동산 뉴스 (총 " ++ toString news_items.length ++ "건)"
    if news_items.isEmpty then
      "최신 뉴스를 준비 중입니다. 잠시 후 다시 시도해주세요."
    else
      pyStrip (newsListText title_text (news_items.map toItem))

/-- The classifier as the specification words it, for comparison with the
code's `detect_category`: normalization removes ALL whitespace characters
(not only the ASCII space) before lower-casing. -/
def detect_category_spec (user_message : Option String) : Option String :=
  match user_message with
  | none => none
  | some um =>
    if pyEmpty um then none
    else
      let message := pyLower ⟨um.data.filter (fun c => !c.isWhitespace)⟩
      (CATEGORY_MAP.find? (fun kv => pyContains message kv.1)).map (fun kv => kv.2)

/-- Boolean form of the score filter `score >= 75` applied by the loop. -/
def scoreOKb (r : Row) : Bool := decide (75 ≤ coerceScore r.relevance_score)

/-- The record the loop appends for a kept row. -/
def convRow (r : Row) : NewsRecord := mkNews r (coerceScore r.relevance_score)

/-- Newest-first order on raw rows: the earlier row's sort key is `>=`. -/
def rowGe (a b : Row) : Prop := pyStrLe (tsKey b) (tsKey a) = true

/-- Newest-first order on returned records, as the spec states it:
`A.timestamp >= B.timestamp` lexicographically. -/
def newsGe (A B : NewsRecord) : Prop := pyStrLe B.timestamp A.timestamp = true

/-- A sheet row with the fields the examples need. -/
def mkRow (ts cat : String) (score : Int) (title url : String) : Row :=
  { timestamp := some ts, relevance_score := some (.int score), title := some title,
    url := some url, category := some cat }

/-- Ten rows: the six oldest score 80, the four newest score 10, so six of
the ten clear the 75 threshold but only one of the five newest does. -/
def ex10 : List Row :=
  [mkRow "2024-01-01" "정책·제도" 80 "t1" "u1",
   mkRow "2024-01-02" "정책·제도" 80 "t2" "u2",
   mkRow "2024-01-03" "정책·제도" 80 "t3" "u3",
   mkRow "2024-01-04" "정책·제도" 80 "t4" "u4",
   mkRow "2024-01-05" "정책·제도" 80 "t5" "u5",
   mkRow "2024-01-06" "정책·제도" 80 "t6" "u6",
   mkRow "2024-01-07" "정책·제도" 10 "t7" "u7",
   mkRow "2024-01-08" "정책·제도" 10 "t8" "u8",
   mkRow "2024-01-09" "정책·제도" 10 "t9" "u9",
   mkRow "2024-01-10" "정책·제도" 10 "t10" "u10"]

/-- A row whose category matches a canonical label but whose score is 50. -/
def exLowRow : Row := mkRow "2024-01-01" "시장 동향·시황" 50 "t" "u"

/-- A well-formed row: canonical category, score 80. -/
def wRow : Row := mkRow "2024-01-01" "정책·제도" 80 "t" "u"

/-- A formatter item whose title key is present but empty. -/
def exItem : Item := { title := some "", url := some "u" }

/-! ## Helper lemmas -/

theorem lexLe_total : ∀ x y : List Char, lexLe x y = true ∨ lexLe y x = true
  | [], _ => Or.inl rfl
  | _ :: _, [] => Or.inr rfl
  | a :: as, b :: bs => by
    simp only [lexLe]
    rcases lt_trichotomy a b with h | h | h
    · left
      simp [h]
    · subst h
      simpa [lt_irrefl] using lexLe_total as bs
    · right
      simp [h]

theorem lexLe_trans : ∀ x y z : List Char,
    lexLe x y = true → lexLe y z = true → lexLe x z = true
  | [], _, _, _, _ => rfl
  | _ :: _, [], _, h1, _ => by simp [lexLe] at h1
  | _ :: _, _ :: _, [], _, h2 => by simp [lexLe] at h2
  | a :: as, b :: bs, c :: cs, h1, h2 => by
    simp only [lexLe] at h1 h2 ⊢
    rcases lt_trichotomy a b with hab | hab | hab
    · rcases lt_trichotomy b c with hbc | hbc | hbc
      · simp [lt_trans hab hbc]
      · subst hbc
        simp [hab]
      · rw [if_neg (lt_asymm hbc), if_pos hbc] at h2
        exact absurd h2 (by simp)
    · subst hab
      rcases lt_trichotomy a c with hac | hac | hac
      · simp [hac]
      · subst hac
        rw [if_neg (lt_irrefl a), if_neg (lt_irrefl a)] at h1 h2 ⊢
        exact lexLe_trans as bs cs h1 h2
      · rw [if_neg (lt_asymm hac), if_pos hac] at h2
        exact absurd h2 (by simp)
    · rw [if_neg (lt_asymm hab), if_pos hab] at h1
      exact absurd h1 (by simp)

theorem pyStrLe_total (a b : String) : pyStrLe a b = true ∨ pyStrLe b a = true :=
  lexLe_total a.data b.data

theorem pyStrLe_trans {a b c : String}
    (h1 : pyStrLe a b = true) (h2 : pyStrLe b c = true) : pyStrLe a c = true :=
  lexLe_trans a.data b.data c.data h1 h2

theorem mem_insertDesc {a r : Row} : ∀ {l : List Row},
    a ∈ insertDesc r l → a = r ∨ a ∈ l
  | [], h => by simpa [insertDesc] using h
  | x :: xs, h => by
    simp only [insertDesc] at h
    split at h
    · rcases List.mem_cons.mp h with h | h
      · exact Or.inr (List.mem_cons.mpr (Or.inl h))
      · rcases mem_insertDesc h with h | h
        · exact Or.inl h
        · exact Or.inr (List.mem_cons.mpr (Or.inr h))
    · rcases List.mem_cons.mp h with h | h
      · exact Or.inl h
      · exact Or.inr h

theorem pairwise_insertDesc {r : Row} : ∀ {l : List Row},
    l.Pairwise rowGe → (insertDesc r l).Pairwise rowGe
  | [], _ => List.pairwise_singleton rowGe r
  | x :: xs, hp => by
    rcases List.pairwise_cons.mp hp with ⟨hx, hxs⟩
    simp only [insertDesc]
    split
    · next hle =>
      refine List.pairwise_cons.mpr ⟨?_, pairwise_insertDesc hxs⟩
      intro y hy
      rcases mem_insertDesc hy with rfl | hy
      · exact hle
      · exact hx y hy
    · next hnle =>
      have hxr : rowGe r x := by
        rcases pyStrLe_total (tsKey r) (tsKey x) with h | h
        · exact absurd h hnle
        · exact h
      refine List.pairwise_cons.mpr ⟨?_, hp⟩
      intro y hy
      rcases List.mem_cons.mp hy with rfl | hy
      · exact hxr
      · exact pyStrLe_trans (hx y hy) hxr

theorem sortRows_pairwise_aux : ∀ (rs acc : List Row),
    acc.Pairwise rowGe →
    (rs.foldl (fun acc r => insertDesc r acc) acc).Pairwise rowGe
  | [], _, h => h
  | _ :: rest, _, h => sortRows_pairwise_aux rest _ (pairwise_insertDesc h)

theorem sortRows_pairwise (rs : List Row) : (sortRows rs).Pairwise rowGe :=
  sortRows_pairwise_aux rs [] List.Pairwise.nil

theorem latestLoop_eq (limit : Nat) : ∀ (rows : List Row) (acc : List NewsRecord),
    acc.length + rows.length ≤ limit →
    latestLoop limit rows acc = acc ++ (rows.filter scoreOKb).map convRow := by
  intro rows
  induction rows with
  | nil =>
    intro acc h
    simp [latestLoop]
  | cons r rest ih =>
    intro acc h
    rw [List.length_cons] at h
    simp only [latestLoop]
    by_cases hp : 75 ≤ coerceScore r.relevance_score
    · simp only [if_pos hp]
      by_cases hb : limit ≤ (acc ++ [mkNews r (coerceScore r.relevance_score)]).length
      · simp only [if_pos hb]
        rw [List.length_append, List.length_singleton] at hb
        have hrest : rest = [] := List.length_eq_zero.mp (by omega)
        subst hrest
        simp [scoreOKb, convRow, hp]
      · simp only [if_neg hb]
        rw [List.length_append, List.length_singleton] at hb
        rw [ih _ (by simp only [List.length_append, List.length_singleton]; omega)]
        simp [scoreOKb, convRow, hp, List.filter_cons]
    · simp only [if_neg hp]
      have hacc : ¬ limit ≤ acc.length := by omega
      simp only [if_neg hacc]
      rw [ih _ (by omega)]
      have : scoreOKb r = false := by
        simpa [scoreOKb] using hp
      simp [List.filter_cons, this]

theorem get_latest_eq (rs : List Row) (limit : Nat) :
    get_latest_news_from_gsheet (.rows rs) limit
      = (((sortRows rs).take limit).filter scoreOKb).map convRow := by
  simp only [get_latest_news_from_gsheet]
  by_cases h : rs.isEmpty
  · have : rs = [] := by simpa using h
    subst this
    simp [sortRows]
  · simp only [if_neg h]
    exact latestLoop_eq limit _ []
      (by simp [List.length_take_le])

theorem get_latest_shape {st : StoreState} {limit : Nat} {r : NewsRecord}
    (h : r ∈ get_latest_news_from_gsheet st limit) :
    ∃ row, r = convRow row ∧ 75 ≤ coerceScore row.relevance_score := by
  cases st with
  | uninit => simp [get_latest_news_from_gsheet] at h
  | fail => simp [get_latest_news_from_gsheet] at h
  | rows rs =>
    rw [get_latest_eq] at h
    rcases List.mem_map.mp h with ⟨row, hrow, rfl⟩
    rcases List.mem_filter.mp hrow with ⟨_, hok⟩
    exact ⟨row, rfl, by simpa [scoreOKb] using hok⟩

theorem get_latest_score {st : StoreState} {limit : Nat} {r : NewsRecord}
    (h : r ∈ get_latest_news_from_gsheet st limit) : 75 ≤ r.relevance_score := by
  rcases get_latest_shape h with ⟨row, rfl, hs⟩
  exact hs

theorem get_latest_length (st : StoreState) (limit : Nat) :
    (get_latest_news_from_gsheet st limit).length ≤ limit := by
  cases st with
  | uninit => simp [get_latest_news_from_gsheet]
  | fail => simp [get_latest_news_from_gsheet]
  | rows rs =>
    rw [get_latest_eq]
    simp only [List.length_map]
    exact le_trans (List.length_filter_le _ _) (List.length_take_le _ _)

theorem get_latest_pairwise (st : StoreState) (limit : Nat) :
    (get_latest_news_from_gsheet st limit).Pairwise newsGe := by
  cases st with
  | uninit => simp [get_latest_news_from_gsheet]
  | fail => simp [get_latest_news_from_gsheet]
  | rows rs =>
    rw [get_latest_eq]
    have hsub : List.Sublist (((sortRows rs).take limit).filter scoreOKb) (sortRows rs) :=
      (List.filter_sublist _).trans (List.take_sublist _ _)
    have hpw : (((sortRows rs).take limit).filter scoreOKb).Pairwise rowGe :=
      (sortRows_pairwise rs).sublist hsub
    rw [List.pairwise_map]
    exact hpw.imp (fun h => h)

theorem category_pairwise (st : StoreState) (category : String) (limit : Nat) :
    (get_news_by_category st category limit).Pairwise newsGe := by
  simp only [get_news_by_category]
  split
  · exact List.Pairwise.nil
  · have hsub :
        List.Sublist
          (((get_latest_news_from_gsheet st 200).filter
            (fun news =>
              pyStrEq (pyLower (normalize_category news.category))
                (pyLower (normalize_category category)))).take limit)
          (get_latest_news_from_gsheet st 200) :=
      (List.take_sublist _ _).trans (List.filter_sublist _)
    exact (get_latest_pairwise st 200).sublist hsub

theorem findFirstSplit {α : Type _} (p : α → Bool) :
    ∀ (l : List α) (a : α), l.find? p = some a →
      ∃ pre post, l = pre ++ a :: post ∧ p a = true ∧ ∀ x ∈ pre, p x = false := by
  intro l
  induction l with
  | nil =>
    intro a h
    simp at h
  | cons x xs ih =>
    intro a h
    by_cases hx : p x = true
    · rw [List.find?_cons_of_pos _ hx] at h
      injection h with h
      subst h
      exact ⟨[], xs, rfl, hx, by simp⟩
    · rw [List.find?_cons_of_neg _ (by simpa using hx)] at h
      rcases ih a h with ⟨pre, post, heq, hpa, hpre⟩
      refine ⟨x :: pre, post, by rw [heq, List.cons_append], hpa, ?_⟩
      intro y hy
      rcases List.mem_cons.mp hy with rfl | hy
      · simpa using hx
      · exact hpre y hy

theorem findFirstOfSplit {α : Type _} (p : α → Bool) :
    ∀ (pre : List α) (a : α) (post : List α), p a = true →
      (∀ x ∈ pre, p x = false) → (pre ++ a :: post).find? p = some a := by
  intro pre
  induction pre with
  | nil =>
    intro a post ha _
    simpa using List.find?_cons_of_pos _ ha
  | cons x xs ih =>
    intro a post ha hpre
    rw [List.cons_append,
      List.find?_cons_of_neg _ (by simp [hpre x (List.mem_cons_self x xs)])]
    exact ih a post ha (fun y hy => hpre y (List.mem_cons_of_mem x hy))

theorem displayUrl_toItem (r : NewsRecord) (hl : r.link = r.url)
    (ho : r.originallink = r.url) :
    displayUrl (toItem r) = (if pyEmpty r.url then "(URL 정보 없음)" else r.url) := by
  by_cases hu : pyEmpty r.url = true
  · simp [displayUrl, resolveUrl, toItem, pyTruthy, hl, ho, hu]
  · simp [displayUrl, resolveUrl, toItem, pyTruthy, hl, ho, hu]

/-! ## Claim theorems -/

/-- Claim C1, counterexample: on ten records of which the six oldest score
80 and the four newest score 10, six records clear the threshold, yet
`get_latest_news_from_gsheet` with limit 5 returns a single record — not
the five most recent of the six qualifying ones. -/
theorem C1_counterexample :
    ex10.countP scoreOKb = 6 ∧
    (get_latest_news_from_gsheet (.rows ex10) 5).length = 1 ∧
    (get_latest_news_from_gsheet (.rows ex10) 5).length ≠ 5 := by
  decide

/-- Claim C1, amended: the selection truncates to the `limit` most recent
records FIRST and only then filters by `relevanceScore >= 75`: the result
is exactly the qualifying records among the `limit` newest ones, newest
first — possibly fewer than `limit` even when `limit` records qualify
overall. -/
theorem C1_latest_truncates_before_filter (rs : List Row) (limit : Nat) :
    get_latest_news_from_gsheet (.rows rs) limit
      = (((sortRows rs).take limit).filter scoreOKb).map convRow :=
  get_latest_eq rs limit

/-- Claim C2, counterexample: a record whose normalized category equals the
target and which is the single (hence newest) match is dropped because its
score 50 is below 75 — the category selection does apply a minimum-score
filter. -/
theorem C2_counterexample :
    pyStrEq (pyLower (normalize_category (exLowRow.category.getD "")))
      (pyLower (normalize_category "시장 동향·시황")) = true ∧
    coerceScore exLowRow.relevance_score < 75 ∧
    get_news_by_category (.rows [exLowRow]) "시장 동향·시황" 3 = [] := by
  decide

/-- Claim C2, amended: `get_news_by_category` draws its candidates from
`get_latest_news_from_gsheet(limit=200)`, so the `>= 75` relevance filter
does apply to category queries: every returned record scores at least 75
and its normalized category matches the normalized target
case-insensitively. -/
theorem C2_category_inherits_threshold (st : StoreState) (category : String)
    (limit : Nat) (r : NewsRecord) (h : r ∈ get_news_by_category st category limit) :
    75 ≤ r.relevance_score ∧
    pyStrEq (pyLower (normalize_category r.category))
      (pyLower (normalize_category category)) = true := by
  revert h
  simp only [get_news_by_category]
  split
  · intro h
    simp at h
  · intro h
    rcases List.mem_filter.mp (List.mem_of_mem_take h) with ⟨hmem, hpred⟩
    exact ⟨get_latest_score hmem, hpred⟩

/-- Witness for the amended claim C2 at a concrete store and category. -/
theorem C2_witness :
    75 ≤ (convRow wRow).relevance_score ∧
    pyStrEq (pyLower (normalize_category (convRow wRow).category))
      (pyLower (normalize_category "정책·제도")) = true :=
  C2_category_inherits_threshold (.rows [wRow]) "정책·제도" 3 (convRow wRow) (by decide)

/-- Claim C3, counterexample: for the no-category message "hello" the full
response text is just the generic header and the one news line; it does
not contain the keyword 분양, so no category-menu hint listing the six
short keywords is appended. -/
theorem C3_counterexample :
    detect_category (some "hello") = none ∧
    handle_news_request (.rows [wRow]) (some "hello")
      = "📰 오늘의 부동산 뉴스 (총 1건)\n\n1. t\nu" ∧
    isSubList ("분양".data) (handle_news_request (.rows [wRow]) (some "hello")).data
      = false := by
  decide

/-- Claim C3, amended: when the classifier finds no category the response
text is exactly the stripped generic header plus the numbered news lines
(or the static "preparing news" message when the selection is empty);
nothing — in particular no category-menu hint — is appended after the
news list. -/
theorem C3_no_menu_hint (st : StoreState) (msg : Option String)
    (h : detect_category msg = none) :
    handle_news_request st msg =
      (if (get_latest_news_from_gsheet st 5).isEmpty then
        "최신 뉴스를 준비 중입니다. 잠시 후 다시 시도해주세요."
      else
        pyStrip (newsListText
          ("📰 오늘의 부동산 뉴스 (총 "
            ++ toString (get_latest_news_from_gsheet st 5).length ++ "건)")
          ((get_latest_news_from_gsheet st 5).map toItem))) := by
  simp only [handle_news_request, h]

/-- Witness for the amended claim C3 at a concrete store and message. -/
theorem C3_witness :
    handle_news_request (.rows [wRow]) (some "hello") =
      (if (get_latest_news_from_gsheet (.rows [wRow]) 5).isEmpty then
        "최신 뉴스를 준비 중입니다. 잠시 후 다시 시도해주세요."
      else
        pyStrip (newsListText
          ("📰 오늘의 부동산 뉴스 (총 "
            ++ toString (get_latest_news_from_gsheet (.rows [wRow]) 5).length ++ "건)")
          ((get_latest_news_from_gsheet (.rows [wRow]) 5).map toItem))) :=
  C3_no_menu_hint (.rows [wRow]) (some "hello") (by decide)

/-- Claim C4, counterexample: on the message "정\n책" — the keyword 정책
split by a newline — the code's classifier finds nothing, while the
claimed normalization (removing ALL whitespace) would match the first rule:
only ASCII spaces are removed, not every whitespace character. -/
theorem C4_counterexample :
    detect_category (some "정\n책") = none ∧
    detect_category_spec (some "정\n책") = some "정책·제도" ∧
    detect_category (some "정\n책") ≠ detect_category_spec (some "정\n책") := by
  decide

/-- Claim C4, amended: the classifier normalizes by removing only ASCII
space characters (other whitespace is preserved) and lower-casing; null
and empty input yield none; a non-none answer is the category of the
FIRST rule of the ordered table whose keyword occurs in the normalized
message (every earlier rule's keyword does not occur); conversely, when a
rule's keyword occurs and every earlier rule's keyword does not, that
rule's category is returned; when no rule's keyword occurs, the answer is
none. -/
theorem C4_classifier_spaces_only :
    detect_category none = none ∧
    detect_category (some "") = none ∧
    (∀ m c, detect_category (some m) = some c →
      ∃ pre kv post, CATEGORY_MAP = pre ++ kv :: post ∧ kv.2 = c ∧
        pyContains (pyLower (pyRemoveSpaces m)) kv.1 = true ∧
        ∀ kv2 ∈ pre, pyContains (pyLower (pyRemoveSpaces m)) kv2.1 = false) ∧
    (∀ m, (∀ kv ∈ CATEGORY_MAP, pyContains (pyLower (pyRemoveSpaces m)) kv.1 = false) →
      detect_category (some m) = none) ∧
    (∀ m (pre : List (String × String)) (kv : String × String) post,
      pyEmpty m = false →
      CATEGORY_MAP = pre ++ kv :: post →
      pyContains (pyLower (pyRemoveSpaces m)) kv.1 = true →
      (∀ kv2 ∈ pre, pyContains (pyLower (pyRemoveSpaces m)) kv2.1 = false) →
      detect_category (some m) = some kv.2) := by
  refine ⟨rfl, rfl, ?_, ?_, ?_⟩
  · intro m c h
    simp only [detect_category] at h
    by_cases he : pyEmpty m = true
    · simp [he] at h
    · rw [if_neg he] at h
      rcases Option.map_eq_some'.mp h with ⟨kv, hfind, hc⟩
      subst hc
      rcases findFirstSplit _ _ _ hfind with ⟨pre, post, heq, hp, hpre⟩
      refine ⟨pre, kv, post, heq, rfl, by simpa using hp, ?_⟩
      intro kv2 hkv2
      simpa using hpre kv2 hkv2
  · intro m hnone
    simp only [detect_category]
    by_cases he : pyEmpty m = true
    · simp [he]
    · rw [if_neg he, List.find?_eq_none.mpr ?_]
      · rfl
      · intro kv hkv
        simp [hnone kv hkv]
  · intro m pre kv post hm heq hkv hpre
    simp only [detect_category]
    rw [if_neg (by simp [hm]), heq,
      findFirstOfSplit _ pre kv post (by simpa using hkv)
        (fun y hy => by simpa using hpre y hy)]
    rfl

/-- Witness for the amended claim C4 at a concrete message containing two
different rules' keywords (정책 and 시장): the first rule of the table
wins. -/
theorem C4_witness :
    detect_category (some "정책 시장") = some "정책·제도" :=
  C4_classifier_spaces_only.2.2.2.2 "정책 시장" [] ("정책", "정책·제도")
    CATEGORY_MAP.tail (by decide) (by decide) (by decide) (by decide)

/-- Claim C5: every record returned by the latest-news selection has a
coerced relevance score of at least 75; the result never exceeds the
requested limit; and the score coercion maps non-numeric text to 0 (it is
a total function, so it cannot throw). -/
theorem C5_score_threshold_and_limit (st : StoreState) (limit : Nat) :
    (∀ r ∈ get_latest_news_from_gsheet st limit, 75 ≤ r.relevance_score) ∧
    (get_latest_news_from_gsheet st limit).length ≤ limit ∧
    (∀ s : String, pyParseInt s = none → coerceScore (some (.str s)) = 0) := by
  refine ⟨fun r hr => get_latest_score hr, get_latest_length st limit, ?_⟩
  intro s hs
  simp [coerceScore, hs]

/-- Witness for claim C5 at a concrete store, record and non-numeric text. -/
theorem C5_witness :
    75 ≤ (convRow wRow).relevance_score ∧ coerceScore (some (.str "abc")) = 0 :=
  ⟨(C5_score_threshold_and_limit (.rows [wRow]) 5).1 (convRow wRow) (by decide),
   (C5_score_threshold_and_limit (.rows [wRow]) 5).2.2 "abc" (by decide)⟩

/-- Claim C6: both selectors return lists sorted by timestamp descending
under lexicographic string comparison — any record A appearing before B
satisfies A.timestamp >= B.timestamp. -/
theorem C6_sorted_desc (st : StoreState) (limit : Nat)
    (category : String) (limit2 : Nat) :
    (get_latest_news_from_gsheet st limit).Pairwise newsGe ∧
    (get_news_by_category st category limit2).Pairwise newsGe :=
  ⟨get_latest_pairwise st limit, category_pairwise st category limit2⟩

/-- Claim C7, counterexample: an item whose title key is present but empty
renders with an empty title, not with the 제목 없음 placeholder — the
fallback fires only when the title key is absent. -/
theorem C7_counterexample :
    exItem.title = some "" ∧
    formatLine 1 exItem = "1. \nu\n\n" ∧
    isSubList ("제목 없음".data) (formatLine 1 exItem).data = false := by
  decide

/-- Claim C7, amended: the formatter emits a 1-based index, the title —
with the 제목 없음 placeholder used only when the title key is ABSENT (a
present empty title is emitted as the empty string) — and the link
resolved with priority url, else link, else originallink (empty values
skipped), else the (URL 정보 없음) placeholder; an item with no truthy URL
field renders the placeholder while its title line is preserved. -/
theorem C7_formatter_fallbacks :
    (∀ (idx : Nat) (it : Item) (t : String), it.title = some t →
      formatLine idx it = toString idx ++ ". " ++ t ++ "\n" ++ displayUrl it ++ "\n\n") ∧
    (∀ (idx : Nat) (it : Item), it.title = none →
      formatLine idx it
        = toString idx ++ ". " ++ "제목 없음" ++ "\n" ++ displayUrl it ++ "\n\n") ∧
    (∀ (it : Item) (u : String), it.url = some u → pyEmpty u = false →
      displayUrl it = u) ∧
    (∀ (it : Item) (u : String), pyTruthy it.url = false → it.link = some u →
      pyEmpty u = false → displayUrl it = u) ∧
    (∀ (it : Item) (u : String), pyTruthy it.url = false → pyTruthy it.link = false →
      it.originallink = some u → pyEmpty u = false → displayUrl it = u) ∧
    (∀ it : Item, pyTruthy it.url = false → pyTruthy it.link = false →
      pyTruthy it.originallink = false → displayUrl it = "(URL 정보 없음)") := by
  refine ⟨?_, ?_, ?_, ?_, ?_, ?_⟩
  · intro idx it t h
    simp [formatLine, h]
  · intro idx it h
    simp [formatLine, h]
  · intro it u h hne
    simp [displayUrl, resolveUrl, pyTruthy, h, hne]
  · intro it u h0 h hne
    simp [displayUrl, resolveUrl, h0, h]
    simp [pyTruthy, hne]
  · intro it u h0 h1 h hne
    simp [displayUrl, resolveUrl, h0, h1, h]
    simp [pyTruthy, hne]
  · intro it h0 h1 h2
    cases ho : it.originallink with
    | none => simp [displayUrl, resolveUrl, h0, h1, ho, pyEmpty]
    | some s =>
      have hs : pyEmpty s = true := by
        rw [ho] at h2
        simpa [pyTruthy] using h2
      simp [displayUrl, resolveUrl, h0, h1, ho, hs]

/-- Witness for the amended claim C7 at a concrete item with a title and
no URL fields. -/
theorem C7_witness :
    displayUrl { title := some "t" } = "(URL 정보 없음)" :=
  C7_formatter_fallbacks.2.2.2.2.2 { title := some "t" } rfl rfl rfl

/-- Claim C8: the three failure shapes — handle not initialized, fetch
raising, and a fetch of zero rows — all make `get_latest_news_from_gsheet`
return the empty list, and the request handler cannot distinguish an
uninitialized store from a failing fetch: it answers every message with
the same well-formed text for both. -/
theorem C8_failure_shapes_empty :
    (∀ limit, get_latest_news_from_gsheet .uninit limit = [] ∧
      get_latest_news_from_gsheet .fail limit = [] ∧
      get_latest_news_from_gsheet (.rows []) limit = []) ∧
    (∀ msg, handle_news_request .uninit msg = handle_news_request .fail msg) := by
  refine ⟨fun limit => ⟨rfl, rfl, rfl⟩, ?_⟩
  intro msg
  cases hd : detect_category msg with
  | none => simp [handle_news_request, hd, get_latest_news_from_gsheet]
  | some c =>
    simp [handle_news_request, hd, get_news_by_category, get_latest_news_from_gsheet]

/-- Claim C9: every non-none answer of the classifier is one of the six
canonical labels (a value of CATEGORY_MAP and a key of CATEGORY_EMOJI), so
the emoji lookup in the handler never falls back to its default glyph. -/
theorem C9_detect_canonical (m : Option String) (c : String)
    (h : detect_category m = some c) :
    c ∈ CATEGORY_MAP.map Prod.snd ∧
    (CATEGORY_EMOJI.find? (fun kv => pyStrEq kv.1 c)).isSome = true ∧
    emojiFor c ≠ "📰" := by
  have hkv : ∃ kv, kv ∈ CATEGORY_MAP ∧ kv.2 = c := by
    cases m with
    | none => simp [detect_category] at h
    | some um =>
      simp only [detect_category] at h
      by_cases he : pyEmpty um = true
      · simp [he] at h
      · rw [if_neg he] at h
        rcases Option.map_eq_some'.mp h with ⟨kv, hfind, hc⟩
        exact ⟨kv, List.mem_of_find?_eq_some hfind, hc⟩
  have hall : ∀ kv ∈ CATEGORY_MAP,
      (CATEGORY_EMOJI.find? (fun e => pyStrEq e.1 kv.2)).isSome = true ∧
      emojiFor kv.2 ≠ "📰" := by decide
  rcases hkv with ⟨kv, hmem, hc⟩
  subst hc
  rcases hall kv hmem with ⟨h1, h2⟩
  exact ⟨List.mem_map.mpr ⟨kv, hmem, rfl⟩, h1, h2⟩

/-- Witness for claim C9 at a concrete message. -/
theorem C9_witness :
    "정책·제도" ∈ CATEGORY_MAP.map Prod.snd ∧
    (CATEGORY_EMOJI.find? (fun kv => pyStrEq kv.1 "정책·제도")).isSome = true ∧
    emojiFor "정책·제도" ≠ "📰" :=
  C9_detect_canonical (some "정책") "정책·제도" (by decide)

/-- Claim C10: every record returned by the latest-news selection copies
its url cell into link and originallink as well, so the formatter's
three-way fallback can only ever produce the url value — or the no-URL
placeholder when that url is empty. -/
theorem C10_links_equal_url (st : StoreState) (limit : Nat) (r : NewsRecord)
    (h : r ∈ get_latest_news_from_gsheet st limit) :
    r.link = r.url ∧ r.originallink = r.url ∧
    displayUrl (toItem r) = (if pyEmpty r.url then "(URL 정보 없음)" else r.url) := by
  rcases get_latest_shape h with ⟨row, rfl, _⟩
  exact ⟨rfl, rfl, displayUrl_toItem _ rfl rfl⟩

/-- Witness for claim C10 at a concrete store and record. -/
theorem C10_witness :
    (convRow wRow).link = (convRow wRow).url ∧
    (convRow wRow).originallink = (convRow wRow).url ∧
    displayUrl (toItem (convRow wRow))
      = (if pyEmpty (convRow wRow).url then "(URL 정보 없음)"
         else (convRow wRow).url) :=
  C10_links_equal_url (.rows [wRow]) 5 (convRow wRow) (by decide)

end NewsBot
